import Mathlib

/-!
Verification of the discovery / TOFU-pinning core of the repository.

The development shallowly embeds the Rust sources:
  * `src/discovery/src/verifier.rs` (certificate validator and trust store),
  * `src/native/hub/src/server/client/discovery.rs` (device store),
  * `src/native/hub/src/utils/device_scanner.rs` (scanner lifecycle).
Stateful code becomes explicit state passing; external crates (webpki chain
validation, x509 parsing, fingerprint hashing, toml, the filesystem) are
parameters or abstract state fields.  `HashMap<String, _>` is embedded as an
association list whose insert replaces the entry for an existing key, with a
no-duplicate-keys invariant.

Lock acquisitions on the non-reentrant mutexes are modelled explicitly: a
call that locks a mutex its own caller already holds produces the outcome
`CallOutcome.hangs` instead of returning.  This matters because three
operations in the source re-lock a mutex inside their own critical section:
`CertValidator::add_trusted_domains` still holds the `fingerprints`
`MutexGuard` when it calls `save_report`, which locks `self.fingerprints`
again (`std::sync::Mutex`, documented not to return on a re-lock from the
owning thread), and `DiscoveryStore::update_device` / `prune_expired` hold
the `devices` tokio `MutexGuard` across `self.save().await`, whose own
`self.devices.lock().await` future then never resolves.
-/

namespace Rune

/-- Association-list lookup, mirroring `HashMap::get`. -/
def lookupAL {α : Type} : List (String × α) → String → Option α
  | [], _ => none
  | (k, v) :: rest, key => if k = key then some v else lookupAL rest key

/-- Association-list insert, mirroring `HashMap::insert`: replaces the entry
for an existing key, otherwise adds a new entry. -/
def insertAL {α : Type} : List (String × α) → String → α → List (String × α)
  | [], k, v => [(k, v)]
  | (k1, v1) :: rest, k, v =>
    if k1 = k then (k, v) :: rest else (k1, v1) :: insertAL rest k v

/-- Outcome of a call that may block forever on a lock: either it returns a
value, or it never returns.  `hangs` models a lock acquisition that cannot
succeed: for `std::sync::Mutex` the standard library documents that a
re-lock from the owning thread does not return (deadlock or panic); for
`tokio::sync::Mutex` the lock future never resolves. -/
inductive CallOutcome (α : Type) where
  | returns (a : α)
  | hangs
  deriving DecidableEq, Repr

/-! ## Certificate validator (`src/discovery/src/verifier.rs`) -/

/-- Error type of `CertValidator` (`CertValidatorError` in `verifier.rs`),
with the payloads of I/O and library errors embedded as strings. -/
inductive CertValidatorError where
  | NotADirectory
  | InvalidPath
  | DirectoryCreation (e : String)
  | Serialization (e : String)
  | CertificateParsing (e : String)
  | InvalidServerName
  | FingerprintMismatch
  | UnknownServer
  | TlsError (e : String)
  deriving DecidableEq, Repr

/-- Errors surfaced through rustls from `verify_server_cert`; the pinning code
in `verifier.rs` only ever constructs `RustlsError::General(msg)`, embedded
here as `general`, while errors produced by the delegated chain verifier may
be arbitrary (`other`). -/
inductive RustlsError where
  | general (msg : String)
  | other (msg : String)
  deriving DecidableEq, Repr

/-- rustls `ServerName`: either a DNS name or some other addressing form
(IP address), which the pinning layer rejects. -/
inductive ServerName where
  | dnsName (s : String)
  | ipAddress (s : String)
  deriving DecidableEq, Repr

/-- State of a `CertValidator`: the in-memory fingerprint map
(`Arc<Mutex<HashMap<String, String>>>`), the contents of the persisted
report file at `report_path` (`none` when the file does not exist, modelled
at the parsed level as identity → fingerprint entries), and whether the
`fingerprints` mutex is currently held by a guard that was never released
(as happens when `add_trusted_domains` hangs). -/
structure ValidatorState where
  fingerprints : List (String × String)
  reportFile : Option (List (String × String))
  fingerprintsLocked : Bool
  deriving DecidableEq, Repr

/-- Embedding of `CertValidator::save_report`: its first statement locks the
`fingerprints` mutex to clone the map
(`self.fingerprints.lock().unwrap().clone()`); if that mutex is already held
the lock never returns, so the call hangs.  Otherwise the guard is a
temporary released at the end of that statement, serialization of a
string-to-string map is total, and `writeResult` stands for the outcome of
`std::fs::write`, whose failure is wrapped in `DirectoryCreation` exactly as
in the source. -/
def save_report (v : ValidatorState) (writeResult : Except String Unit) :
    CallOutcome (Except CertValidatorError Unit) × ValidatorState :=
  if v.fingerprintsLocked then
    (.hangs, v)
  else
    match writeResult with
    | .ok () => (.returns (.ok ()), { v with reportFile := some v.fingerprints })
    | .error e => (.returns (.error (.DirectoryCreation e)), v)

/-- Embedding of `CertValidator::add_trusted_domains`: acquires the
`fingerprints` mutex (blocking if it is already held) and keeps the guard
for the rest of the function body, inserts the fingerprint for every domain
into the shared map, then calls `save_report` while the guard is still
held.  `save_report` re-locks the same non-reentrant `std::sync::Mutex`, so
that inner call never returns: the function hangs with the insertions
applied, the report file unwritten and the mutex still held.  The
`.returns` branch is how a completed `save_report` would propagate (guard
dropped on return) — control never reaches it. -/
def add_trusted_domains (v : ValidatorState) (domains : List String)
    (fingerprint : String) (writeResult : Except String Unit) :
    CallOutcome (Except CertValidatorError Unit) × ValidatorState :=
  if v.fingerprintsLocked then
    (.hangs, v)
  else
    let v1 : ValidatorState :=
      { v with fingerprintsLocked := true,
               fingerprints :=
                 domains.foldl (fun m domain => insertAL m domain fingerprint) v.fingerprints }
    match save_report v1 writeResult with
    | (.hangs, v2) => (.hangs, v2)
    | (.returns r, v2) => (.returns r, { v2 with fingerprintsLocked := false })

/-- Embedding of `CertValidator::verify_server_cert`.  The delegated stages
are parameters: `innerResult` is the chain-of-trust verdict of the wrapped
`WebPkiServerVerifier`, `parseResult` the public key extracted by
`parse_x509_certificate`, and `calcFp` the fingerprint computation
(`calculate_base85_fingerprint`, which lives outside the provided sources).
Failures of the delegated stages are wrapped in `RustlsError::General`
exactly as in the source.  The `fingerprints` mutex is locked only after
those stages (source line 177); if it is held by a hung `trust` call,
`verify` blocks there forever, otherwise the guard is released when the
function returns. -/
def verify_server_cert (v : ValidatorState)
    (innerResult : Except RustlsError Unit)
    (parseResult : Except String (List Nat))
    (calcFp : List Nat → Except String String)
    (server_name : ServerName) : CallOutcome (Except RustlsError Unit) :=
  match innerResult with
  | .error e => .returns (.error e)
  | .ok () =>
    match parseResult with
    | .error e => .returns (.error (.general e))
    | .ok public_key_der =>
      match calcFp public_key_der with
      | .error e => .returns (.error (.general e))
      | .ok fingerprint =>
        match server_name with
        | .ipAddress _ => .returns (.error (.general "Invalid server name"))
        | .dnsName dns =>
          if v.fingerprintsLocked then
            .hangs
          else
            match lookupAL v.fingerprints dns with
            | some existing =>
              if existing ≠ fingerprint then
                .returns (.error (.general "Certificate fingerprint mismatch"))
              else
                .returns (.ok ())
            | none => .returns (.error (.general "Unknown server"))

/-- Modelled from the spec: the `DiscoveredDevice` record is declared in the
discovery crate's `udp_multicast` module, which is not among the provided
sources; per the spec's data model it carries alias, device model, device
type, fingerprint and a `last_seen` timestamp.  Timestamps are modelled as
nanoseconds on a `SystemTime`-like clock. -/
structure DiscoveredDevice where
  «alias» : String
  device_model : String
  device_type : String
  fingerprint : String
  last_seen : Nat
  deriving DecidableEq, Repr

/-- Nanoseconds per second, for `Duration` arithmetic. -/
def nanosPerSec : Nat := 1000000000

/-- `Duration::MAX` in nanoseconds: `u64::MAX` seconds plus 999 999 999 ns. -/
def durationMax : Nat := 18446744073709551615 * nanosPerSec + 999999999

/-- The 30-second retention window (`Duration::from_secs(30)`), in
nanoseconds. -/
def retentionWindow : Nat := 30 * nanosPerSec

/-- `SystemTime::elapsed`: the duration since `lastSeen` at clock reading
`now`, failing (like `SystemTime::elapsed`) when `lastSeen` is in the
future. -/
def elapsedSince (now lastSeen : Nat) : Option Nat :=
  if lastSeen ≤ now then some (now - lastSeen) else none

/-- The staleness filter used by `DiscoveryStore::save` and
`DiscoveryStore::prune_expired`:
`d.last_seen.elapsed().unwrap_or(Duration::MAX) < Duration::from_secs(30)`. -/
def isFresh (now : Nat) (d : DiscoveredDevice) : Bool :=
  (elapsedSince now d.last_seen).getD durationMax < retentionWindow

/-- State of a `DiscoveryStore`: the in-memory device list
(`Arc<Mutex<Vec<DiscoveredDevice>>>`) and the contents of the `.discovered`
file, `none` when the file does not exist.  The file is modelled at the
parsed level (the record list it holds). -/
structure DiscoveryStoreState where
  devices : List DiscoveredDevice
  file : Option (List DiscoveredDevice)
  deriving DecidableEq, Repr

/-- Embedding of `DiscoveryStore::save` at clock reading `now`: filters the
current in-memory list to non-stale entries and rewrites the file with
exactly that filtered list; the in-memory list itself is not modified. -/
def DiscoveryStore.save (now : Nat) (st : DiscoveryStoreState) : DiscoveryStoreState :=
  { st with file := some (st.devices.filter (isFresh now)) }

/-- The devices-mutex acquisition at the top of `DiscoveryStore::save`
(`self.devices.lock().await.clone()`): resolves to a clone of the live list
when the mutex is free; when the calling task already holds the guard — as
in `update_device` and `prune_expired`, which call `self.save().await`
inside their own critical section — the non-reentrant tokio lock future
never resolves. -/
def save_lock_devices (callerHoldsGuard : Bool) (st : DiscoveryStoreState) :
    CallOutcome (List DiscoveredDevice) :=
  if callerHoldsGuard then .hangs else .returns st.devices

/-- `DiscoveryStore::save` as invoked from a given locking context: lock the
devices mutex, then filter the cloned list to non-stale entries and rewrite
the file.  With the mutex free this agrees with `DiscoveryStore.save`
(`save_in_context_free` below); with the guard held by the caller the
initial lock never resolves and nothing is written. -/
def save_in_context (now : Nat) (callerHoldsGuard : Bool) (st : DiscoveryStoreState) :
    CallOutcome Unit × DiscoveryStoreState :=
  match save_lock_devices callerHoldsGuard st with
  | .hangs => (.hangs, st)
  | .returns ds => (.returns (), { st with file := some (ds.filter (isFresh now)) })

/-- The upsert of `DiscoveryStore::update_device`: replace the first entry
with the same fingerprint in place, or push the device at the end. -/
def upsert (device : DiscoveredDevice) : List DiscoveredDevice → List DiscoveredDevice
  | [] => [device]
  | d :: rest =>
    if d.fingerprint = device.fingerprint then device :: rest else d :: upsert device rest

/-- Embedding of `DiscoveryStore::update_device`: acquires the devices lock,
replaces the first entry with the device's fingerprint in place (or pushes
the device at the end), then calls `self.save().await` while the guard is
still held; `save` re-locks the same tokio mutex, so the call hangs right
after the upsert — the updated list is in the live cache, but nothing is
persisted, the call never returns and the lock is never released. -/
def DiscoveryStore.update_device (now : Nat) (st : DiscoveryStoreState)
    (device : DiscoveredDevice) : CallOutcome Unit × DiscoveryStoreState :=
  save_in_context now true { st with devices := upsert device st.devices }

structure ScannerState where
  broadcast_task : Option Nat
  listen_task : Option Nat
  is_broadcasting : Bool
  alive_broadcast : List Nat
  alive_listen : List Nat
  next_id : Nat
  deriving DecidableEq, Repr

/-- The scanner state right after `DeviceScanner::new`: no tasks, not
broadcasting. -/
def ScannerState.init : ScannerState :=
  { broadcast_task := none, listen_task := none, is_broadcasting := false,
    alive_broadcast := [], alive_listen := [], next_id := 0 }

/-- Embedding of `DeviceScanner::stop_broadcast`: only when the
`is_broadcasting` flag is set, take the stored handle, abort it, and clear
the flag; a no-op otherwise. -/
def DeviceScanner.stop_broadcast (st : ScannerState) : ScannerState :=
  if st.is_broadcasting then
    match st.broadcast_task with
    | some t =>
      { st with broadcast_task := none,
                alive_broadcast := st.alive_broadcast.filter (fun x => x ≠ t),
                is_broadcasting := false }
    | none => { st with is_broadcasting := false }
  else st

/-- Embedding of `DeviceScanner::start_broadcast`: terminate any existing
task first via `stop_broadcast`, set the `is_broadcasting` flag, spawn the
broadcast loop and store its handle. -/
def DeviceScanner.start_broadcast (st : ScannerState) : ScannerState :=
  let st1 := DeviceScanner.stop_broadcast st
  { st1 with is_broadcasting := true,
             broadcast_task := some st1.next_id,
             alive_broadcast := st1.alive_broadcast ++ [st1.next_id],
             next_id := st1.next_id + 1 }

/-- Natural completion of the broadcast loop `t` (the requested duration
elapsed): the task ends and stores `false` into `is_broadcasting`. -/
def DeviceScanner.broadcast_loop_finish (st : ScannerState) (t : Nat) : ScannerState :=
  { st with alive_broadcast := st.alive_broadcast.filter (fun x => x ≠ t),
            is_broadcasting := false }

/-- Embedding of `DeviceScanner::start_listening`: spawn a new listen loop
and store its handle.  The source does not stop a previously stored listen
task; its handle is merely overwritten. -/
def DeviceScanner.start_listening (st : ScannerState) : ScannerState :=
  { st with listen_task := some st.next_id,
            alive_listen := st.alive_listen ++ [st.next_id],
            next_id := st.next_id + 1 }

/-- Embedding of `DeviceScanner::stop_listening`: take the stored handle, if
any, and abort it. -/
def DeviceScanner.stop_listening (st : ScannerState) : ScannerState :=
  match st.listen_task with
  | some t =>
    { st with listen_task := none,
              alive_listen := st.alive_listen.filter (fun x => x ≠ t) }
  | none => st

/-- The event-forwarding step of `DeviceScanner::start_event_forwarder`
applied to the scanner's concurrent map: `devices_map.insert(
device.fingerprint.clone(), device.clone())`. -/
def forwardEvent (m : List (String × DiscoveredDevice)) (device : DiscoveredDevice) :
    List (String × DiscoveredDevice) :=
  insertAL m device.fingerprint device

/-- Invariant of the scanner's event-forwarding map: keys are unique and
every entry is keyed by its device's fingerprint, so there is at most one
entry per fingerprint. -/
def scannerMapInv (m : List (String × DiscoveredDevice)) : Prop :=
  (m.map Prod.fst).Nodup ∧ ∀ p ∈ m, p.1 = p.2.fingerprint

/-- Well-formedness of the scanner's broadcast lifecycle state: at most one
broadcast loop is alive, none is alive while the flag is clear, and any alive
loop is the one whose handle is stored. -/
def ScannerWF (st : ScannerState) : Prop :=
  st.alive_broadcast.length ≤ 1 ∧
  (st.is_broadcasting = false → st.alive_broadcast = []) ∧
  (∀ t ∈ st.alive_broadcast, st.broadcast_task = some t)

/-! ### Sample data for concrete evaluations -/

/-- A clock reading of 31 s, in nanoseconds. -/
def sampleNow : Nat := 31000000000

/-- A device last seen 11 s before `sampleNow` (fresh). -/
def sampleFresh : DiscoveredDevice :=
  { «alias» := "peer-a", device_model := "ModelA", device_type := "Desktop",
    fingerprint := "fp-a", last_seen := 20000000000 }

/-- A device last seen 31 s before `sampleNow` (stale: age ≥ 30 s). -/
def sampleStale : DiscoveredDevice :=
  { «alias» := "peer-b", device_model := "ModelB", device_type := "Mobile",
    fingerprint := "fp-b", last_seen := 0 }

/-- An update for the device with fingerprint `fp-a`, carrying a new alias. -/
def sampleUpdated : DiscoveredDevice :=
  { «alias» := "peer-a-renamed", device_model := "ModelA", device_type := "Desktop",
    fingerprint := "fp-a", last_seen := 25000000000 }

theorem lookupAL_insertAL_self {α : Type} (m : List (String × α)) (k : String) (v : α) :
    lookupAL (insertAL m k v) k = some v := by
  induction m with
  | nil => simp [insertAL, lookupAL]
  | cons p rest ih =>
    obtain ⟨k1, v1⟩ := p
    by_cases h : k1 = k
    · simp [insertAL, lookupAL, h]
    · simp [insertAL, lookupAL, h, ih]

theorem lookupAL_insertAL_ne {α : Type} (m : List (String × α)) (k key : String) (v : α)
    (h : key ≠ k) : lookupAL (insertAL m k v) key = lookupAL m key := by
  have hk : k ≠ key := Ne.symm h
  induction m with
  | nil => simp [insertAL, lookupAL, hk]
  | cons p rest ih =>
    obtain ⟨k1, v1⟩ := p
    by_cases h1 : k1 = k
    · subst h1
      simp [insertAL, lookupAL, hk]
    · simp [insertAL, lookupAL, h1, ih]

theorem insertAL_cons_self {α : Type} (rest : List (String × α)) (k : String) (v1 v : α) :
    insertAL ((k, v1) :: rest) k v = (k, v) :: rest := by
  simp [insertAL]

theorem insertAL_cons_ne {α : Type} (rest : List (String × α)) (k1 k : String) (v1 v : α)
    (h : k1 ≠ k) : insertAL ((k1, v1) :: rest) k v = (k1, v1) :: insertAL rest k v := by
  simp [insertAL, h]

theorem mem_keys_insertAL {α : Type} (m : List (String × α)) (k a : String) (v : α) :
    a ∈ (insertAL m k v).map Prod.fst ↔ a ∈ m.map Prod.fst ∨ a = k := by
  induction m with
  | nil => simp [insertAL]
  | cons p rest ih =>
    obtain ⟨k1, v1⟩ := p
    by_cases h : k1 = k
    · subst h
      rw [insertAL_cons_self]
      simp only [List.map_cons, List.mem_cons]
      tauto
    · rw [insertAL_cons_ne rest k1 k v1 v h]
      simp only [List.map_cons, List.mem_cons, ih]
      tauto

theorem nodup_keys_insertAL {α : Type} (m : List (String × α)) (k : String) (v : α)
    (hm : (m.map Prod.fst).Nodup) : ((insertAL m k v).map Prod.fst).Nodup := by
  induction m with
  | nil => simp [insertAL]
  | cons p rest ih =>
    obtain ⟨k1, v1⟩ := p
    simp only [List.map_cons, List.nodup_cons] at hm
    by_cases h : k1 = k
    · subst h
      rw [insertAL_cons_self]
      simp only [List.map_cons, List.nodup_cons]
      exact hm
    · have htail := ih hm.2
      rw [insertAL_cons_ne rest k1 k v1 v h]
      simp only [List.map_cons, List.nodup_cons]
      refine ⟨fun hmem => ?_, htail⟩
      rcases (mem_keys_insertAL rest k k1 v).mp hmem with h1 | h1
      · exact hm.1 h1
      · exact h h1

theorem filter_key_eq_nil {α : Type} (m : List (String × α)) (S : String)
    (h : S ∉ m.map Prod.fst) : m.filter (fun p => p.1 == S) = [] := by
  induction m with
  | nil => simp
  | cons p rest ih =>
    obtain ⟨k1, v1⟩ := p
    simp only [List.map_cons, List.mem_cons] at h
    push_neg at h
    have hne : (k1 == S) = false := by
      simpa using Ne.symm h.1
    simp only [List.filter, hne]
    exact ih h.2

theorem filter_key_insertAL {α : Type} (m : List (String × α)) (S : String) (v : α)
    (hm : (m.map Prod.fst).Nodup) :
    (insertAL m S v).filter (fun p => p.1 == S) = [(S, v)] := by
  induction m with
  | nil => simp [insertAL]
  | cons p rest ih =>
    obtain ⟨k1, v1⟩ := p
    simp only [List.map_cons, List.nodup_cons] at hm
    by_cases h : k1 = S
    · have hfil : rest.filter (fun p => p.1 == S) = [] := by
        refine filter_key_eq_nil rest S ?_
        rw [← h]
        exact hm.1
      subst h
      rw [insertAL_cons_self]
      simp [List.filter, hfil]
    · have hne : (k1 == S) = false := by simpa using h
      rw [insertAL_cons_ne rest k1 S v1 v h]
      simp only [List.filter, hne]
      exact ih hm.2

theorem mem_entries_insertAL {α : Type} (m : List (String × α)) (k : String) (v : α)
    (p : String × α) (hp : p ∈ insertAL m k v) : p ∈ m ∨ p = (k, v) := by
  induction m with
  | nil => simpa [insertAL] using hp
  | cons q rest ih =>
    obtain ⟨k1, v1⟩ := q
    by_cases h : k1 = k
    · subst h
      rw [insertAL_cons_self] at hp
      rcases List.mem_cons.mp hp with h1 | h1
      · exact Or.inr h1
      · exact Or.inl (List.mem_cons_of_mem _ h1)
    · rw [insertAL_cons_ne rest k1 k v1 v h] at hp
      rcases List.mem_cons.mp hp with h1 | h1
      · exact Or.inl (by simp [h1])
      · rcases ih h1 with h2 | h2
        · exact Or.inl (List.mem_cons_of_mem _ h2)
        · exact Or.inr h2

theorem lookupAL_foldl_insert_not_mem (D : List String) (F : String)
    (m : List (String × String)) (S : String) (hS : S ∉ D) :
    lookupAL (D.foldl (fun m d => insertAL m d F) m) S = lookupAL m S := by
  induction D generalizing m with
  | nil => rfl
  | cons d rest ih =>
    simp only [List.mem_cons] at hS
    push_neg at hS
    simp only [List.foldl_cons]
    rw [ih (insertAL m d F) hS.2, lookupAL_insertAL_ne m d S F hS.1]

theorem lookupAL_foldl_insert_mem (D : List String) (F : String)
    (m : List (String × String)) (S : String) (hS : S ∈ D) :
    lookupAL (D.foldl (fun m d => insertAL m d F) m) S = some F := by
  induction D generalizing m with
  | nil => cases hS
  | cons d rest ih =>
    simp only [List.foldl_cons]
    by_cases hmem : S ∈ rest
    · exact ih (insertAL m d F) hmem
    · have hd : S = d := by
        rcases List.mem_cons.mp hS with h | h
        · exact h
        · exact absurd h hmem
      subst hd
      rw [lookupAL_foldl_insert_not_mem rest F _ S hmem, lookupAL_insertAL_self]

theorem nodup_keys_foldl_insert (D : List String) (F : String)
    (m : List (String × String)) (hm : (m.map Prod.fst).Nodup) :
    ((D.foldl (fun m d => insertAL m d F) m).map Prod.fst).Nodup := by
  induction D generalizing m with
  | nil => exact hm
  | cons d rest ih =>
    simp only [List.foldl_cons]
    exact ih _ (nodup_keys_insertAL m d F hm)

/-! ### Upsert lemmas (device lists keyed by fingerprint) -/

theorem upsert_cons_eq (e : DiscoveredDevice) (rest : List DiscoveredDevice)
    (d : DiscoveredDevice) (h : e.fingerprint = d.fingerprint) :
    upsert d (e :: rest) = d :: rest := by
  simp [upsert, h]

theorem upsert_cons_ne (e : DiscoveredDevice) (rest : List DiscoveredDevice)
    (d : DiscoveredDevice) (h : e.fingerprint ≠ d.fingerprint) :
    upsert d (e :: rest) = e :: upsert d rest := by
  simp [upsert, h]

theorem mem_fp_upsert (l : List DiscoveredDevice) (d : DiscoveredDevice) (a : String) :
    a ∈ (upsert d l).map DiscoveredDevice.fingerprint
      ↔ a ∈ l.map DiscoveredDevice.fingerprint ∨ a = d.fingerprint := by
  induction l with
  | nil => simp [upsert]
  | cons e rest ih =>
    by_cases h : e.fingerprint = d.fingerprint
    · rw [upsert_cons_eq e rest d h]
      simp only [List.map_cons, List.mem_cons, h]
      tauto
    · rw [upsert_cons_ne e rest d h]
      simp only [List.map_cons, List.mem_cons, ih]
      tauto

theorem nodup_fp_upsert (l : List DiscoveredDevice) (d : DiscoveredDevice)
    (hl : (l.map DiscoveredDevice.fingerprint).Nodup) :
    ((upsert d l).map DiscoveredDevice.fingerprint).Nodup := by
  induction l with
  | nil => simp [upsert]
  | cons e rest ih =>
    simp only [List.map_cons, List.nodup_cons] at hl
    by_cases h : e.fingerprint = d.fingerprint
    · simp only [upsert, if_pos h, List.map_cons, List.nodup_cons]
      exact ⟨by rw [← h]; exact hl.1, hl.2⟩
    · simp only [upsert, if_neg h, List.map_cons, List.nodup_cons]
      refine ⟨fun hmem => ?_, ih hl.2⟩
      rcases (mem_fp_upsert rest d e.fingerprint).mp hmem with h1 | h1
      · exact hl.1 h1
      · exact h h1

theorem filter_fp_eq_nil (l : List DiscoveredDevice) (S : String)
    (h : S ∉ l.map DiscoveredDevice.fingerprint) :
    l.filter (fun e => e.fingerprint == S) = [] := by
  induction l with
  | nil => simp
  | cons e rest ih =>
    simp only [List.map_cons, List.mem_cons] at h
    push_neg at h
    have hne : (e.fingerprint == S) = false := by
      simpa using Ne.symm h.1
    simp only [List.filter, hne]
    exact ih h.2

theorem filter_fp_upsert (l : List DiscoveredDevice) (d : DiscoveredDevice)
    (hl : (l.map DiscoveredDevice.fingerprint).Nodup) :
    (upsert d l).filter (fun e => e.fingerprint == d.fingerprint) = [d] := by
  induction l with
  | nil => simp [upsert]
  | cons e rest ih =>
    simp only [List.map_cons, List.nodup_cons] at hl
    by_cases h : e.fingerprint = d.fingerprint
    · have hfil : rest.filter (fun e => e.fingerprint == d.fingerprint) = [] := by
        refine filter_fp_eq_nil rest d.fingerprint ?_
        rw [← h]
        exact hl.1
      simp only [upsert, if_pos h, List.filter, hfil]
      simp
    · have hne : (e.fingerprint == d.fingerprint) = false := by simpa using h
      simp only [upsert, if_neg h, List.filter, hne]
      exact ih hl.2

/-! ### Scanner lifecycle lemmas -/

theorem stop_broadcast_flag (st : ScannerState) :
    (DeviceScanner.stop_broadcast st).is_broadcasting = false := by
  by_cases h : st.is_broadcasting
  · cases hb : st.broadcast_task <;> simp [DeviceScanner.stop_broadcast, h, hb]
  · simp only [DeviceScanner.stop_broadcast, if_neg h]
    exact Bool.not_eq_true _ |>.mp h

theorem stop_broadcast_next_id (st : ScannerState) :
    (DeviceScanner.stop_broadcast st).next_id = st.next_id := by
  by_cases h : st.is_broadcasting
  · cases hb : st.broadcast_task <;> simp [DeviceScanner.stop_broadcast, h, hb]
  · simp [DeviceScanner.stop_broadcast, h]

theorem stop_broadcast_alive (st : ScannerState) (hwf : ScannerWF st) :
    (DeviceScanner.stop_broadcast st).alive_broadcast = [] := by
  by_cases h : st.is_broadcasting
  · cases hb : st.broadcast_task with
    | none =>
      simp only [DeviceScanner.stop_broadcast, if_pos h, hb]
      rcases List.eq_nil_or_concat st.alive_broadcast with hnil | ⟨l, a, hl⟩
      · exact hnil
      · exfalso
        have := hwf.2.2 a (by rw [hl]; simp)
        rw [hb] at this
        cases this
    | some tb =>
      simp only [DeviceScanner.stop_broadcast, if_pos h, hb]
      refine List.filter_eq_nil_iff.mpr fun x hx => ?_
      have := hwf.2.2 x hx
      rw [hb] at this
      have hxtb : x = tb := by injection this with hinj; exact hinj.symm
      simp [hxtb]
  · have hfalse : st.is_broadcasting = false := Bool.not_eq_true _ |>.mp h
    simp only [DeviceScanner.stop_broadcast, if_neg h]
    exact hwf.2.1 hfalse

/-- With the devices mutex free, the lock-explicit save agrees with the
standalone `DiscoveryStore.save`. -/
theorem save_in_context_free (now : Nat) (st : DiscoveryStoreState) :
    save_in_context now false st = (.returns (), DiscoveryStore.save now st) := rfl

/-! ## Claim theorems -/

/-- C1: evaluation at the claim's scenario.  In the source, `trust([S], F)`
(`add_trusted_domains`) self-deadlocks: it still holds the `fingerprints`
mutex guard when `save_report` re-locks the same non-reentrant mutex, so the
trust call never returns, leaves the mutex held and never writes the report
file; a subsequent `verify` against the same validator blocks on that held
mutex instead of accepting — the claim's accept-after-trust scenario never
occurs.  The pinning decision itself behaves as the claim says whenever the
mutex is free: a stored fingerprint equal to the computed one accepts, a
different stored fingerprint rejects with the mismatch error, an absent
entry rejects with the unknown-server error. -/
theorem c1_trust_then_verify_deadlock :
    (add_trusted_domains ⟨[], none, false⟩ ["s"] "f" (.ok ())).1 = .hangs
  ∧ (add_trusted_domains ⟨[], none, false⟩ ["s"] "f" (.ok ())).2
      = ⟨[("s", "f")], none, true⟩
  ∧ verify_server_cert (add_trusted_domains ⟨[], none, false⟩ ["s"] "f" (.ok ())).2
      (.ok ()) (.ok [0]) (fun _ => Except.ok "f") (.dnsName "s") = .hangs
  ∧ verify_server_cert ⟨[("s", "f")], none, false⟩
      (.ok ()) (.ok [0]) (fun _ => Except.ok "f") (.dnsName "s") = .returns (.ok ())
  ∧ verify_server_cert ⟨[("s", "g")], none, false⟩
      (.ok ()) (.ok [0]) (fun _ => Except.ok "f") (.dnsName "s")
      = .returns (.error (.general "Certificate fingerprint mismatch"))
  ∧ verify_server_cert ⟨[], none, false⟩
      (.ok ()) (.ok [0]) (fun _ => Except.ok "f") (.dnsName "s")
      = .returns (.error (.general "Unknown server")) :=
  ⟨rfl, rfl, rfl, rfl, rfl, rfl⟩

/-- C2: evaluation at the claim's scenario.  The first `trust([S], F)` call
self-deadlocks inside `save_report` while holding the `fingerprints` mutex,
so it never returns and never releases the lock; a second `trust([S], G)`
call then blocks at its initial lock acquisition without inserting `G` —
the in-memory store still maps `S` to `F` — and a subsequent `verify` also
blocks on the held mutex, so the claimed overwrite end state and the
rejecting verification are unreachable. -/
theorem c2_overwrite_unreachable :
    (add_trusted_domains ⟨[], none, false⟩ ["s"] "f" (.ok ())).1 = .hangs
  ∧ (add_trusted_domains (add_trusted_domains ⟨[], none, false⟩ ["s"] "f" (.ok ())).2
        ["s"] "g" (.ok ())).1 = .hangs
  ∧ (add_trusted_domains (add_trusted_domains ⟨[], none, false⟩ ["s"] "f" (.ok ())).2
        ["s"] "g" (.ok ())).2.fingerprints = [("s", "f")]
  ∧ verify_server_cert (add_trusted_domains (add_trusted_domains
        ⟨[], none, false⟩ ["s"] "f" (.ok ())).2 ["s"] "g" (.ok ())).2
        (.ok ()) (.ok [0]) (fun _ => Except.ok "f") (.dnsName "s") = .hangs :=
  ⟨rfl, rfl, rfl, rfl⟩

/-- C3: evaluation at the claim's scenario.  `trust(["s"], "f")` inserts
the entry into the shared in-memory map and then self-deadlocks re-locking
the held `fingerprints` mutex inside `save_report`, before any write is
attempted: with a failing write it never returns the `DirectoryCreation`
error (it never returns at all), and with a succeeding write it still never
persists the store — contrary to the claim's persist-before-returning and
error-surfacing behavior. -/
theorem c3_trust_never_persists :
    (add_trusted_domains ⟨[], none, false⟩ ["s"] "f" (.error "disk full")).1 = .hangs
  ∧ (add_trusted_domains ⟨[], none, false⟩ ["s"] "f" (.error "disk full")).2.reportFile
      = none
  ∧ (add_trusted_domains ⟨[], none, false⟩ ["s"] "f" (.error "disk full")).2.fingerprints
      = [("s", "f")]
  ∧ (add_trusted_domains ⟨[], none, false⟩ ["s"] "f" (.ok ())).1 = .hangs
  ∧ (add_trusted_domains ⟨[], none, false⟩ ["s"] "f" (.ok ())).2.reportFile = none :=
  ⟨rfl, rfl, rfl, rfl, rfl⟩

/-- C5: evaluation at the claim's scenario.  `update_device` performs the
in-place upsert by fingerprint, but then calls `self.save().await` while
still holding the `devices` tokio mutex guard; `save` re-locks the same
non-reentrant mutex, so the call hangs — at the hang point the live list
holds the upserted entries (exactly one entry for the updated fingerprint,
bearing the latest alias), but nothing is persisted, the call never returns
and the lock is never released, so the claimed post-`update_device` store
state is never observable. -/
theorem c5_update_device_deadlock :
    (DiscoveryStore.update_device sampleNow ⟨[sampleFresh, sampleStale], none⟩
        sampleUpdated).1 = .hangs
  ∧ (DiscoveryStore.update_device sampleNow ⟨[sampleFresh, sampleStale], none⟩
        sampleUpdated).2.devices = [sampleUpdated, sampleStale]
  ∧ (DiscoveryStore.update_device sampleNow ⟨[sampleFresh, sampleStale], none⟩
        sampleUpdated).2.file = none := by
  refine ⟨rfl, ?_, rfl⟩
  decide

/-- C6: the source's `start_listening` does not stop an existing listen
operation — it spawns a new listen loop and overwrites the stored handle.
Evaluating the embedding at the failing input (two successive
`start_listening` calls from the freshly constructed scanner) leaves both
spawned listen loops alive, with only the second one's handle stored, so an
abort via `stop_listening` can no longer reach the first loop. -/
theorem c6_start_listening_leak :
    (DeviceScanner.start_listening (DeviceScanner.start_listening ScannerState.init)).alive_listen
        = [0, 1]
  ∧ (DeviceScanner.start_listening
        (DeviceScanner.start_listening ScannerState.init)).alive_listen.length = 2
  ∧ (DeviceScanner.start_listening
        (DeviceScanner.start_listening ScannerState.init)).listen_task = some 1
  ∧ (DeviceScanner.stop_listening (DeviceScanner.start_listening
        (DeviceScanner.start_listening ScannerState.init))).alive_listen = [0] :=
  ⟨rfl, rfl, rfl, by decide⟩

/-- C7: from any well-formed scanner state, `start_broadcast` first stops
any running broadcast, so exactly one broadcast loop is alive afterwards and
the `is_broadcasting` flag is set; `stop_broadcast` clears the flag and
leaves no broadcast loop alive; natural completion of an alive loop clears
the flag and leaves no loop alive; and `stop_broadcast` / `stop_listening`
with nothing running are no-ops that complete without error and change
nothing. -/
theorem c7_broadcast_lifecycle (st : ScannerState) (hwf : ScannerWF st) :
    ((DeviceScanner.start_broadcast st).is_broadcasting = true
      ∧ (DeviceScanner.start_broadcast st).alive_broadcast = [st.next_id]
      ∧ ScannerWF (DeviceScanner.start_broadcast st))
  ∧ ((DeviceScanner.stop_broadcast st).is_broadcasting = false
      ∧ (DeviceScanner.stop_broadcast st).alive_broadcast = []
      ∧ ScannerWF (DeviceScanner.stop_broadcast st))
  ∧ (∀ t ∈ st.alive_broadcast,
      (DeviceScanner.broadcast_loop_finish st t).is_broadcasting = false
      ∧ (DeviceScanner.broadcast_loop_finish st t).alive_broadcast = []
      ∧ ScannerWF (DeviceScanner.broadcast_loop_finish st t))
  ∧ (st.is_broadcasting = false → DeviceScanner.stop_broadcast st = st)
  ∧ (st.listen_task = none → DeviceScanner.stop_listening st = st) := by
  have hstopalive : (DeviceScanner.stop_broadcast st).alive_broadcast = [] :=
    stop_broadcast_alive st hwf
  have hstopflag : (DeviceScanner.stop_broadcast st).is_broadcasting = false :=
    stop_broadcast_flag st
  refine ⟨⟨rfl, ?_, ?_⟩, ⟨hstopflag, hstopalive, ?_⟩, ?_, ?_, ?_⟩
  · simp [DeviceScanner.start_broadcast, hstopalive, stop_broadcast_next_id]
  · refine ⟨?_, ?_, ?_⟩
    · simp [DeviceScanner.start_broadcast, hstopalive]
    · intro hcontra
      simp [DeviceScanner.start_broadcast] at hcontra
    · intro u hu
      simp only [DeviceScanner.start_broadcast, hstopalive, List.nil_append,
        List.mem_singleton] at hu ⊢
      rw [hu]
  · exact ⟨by rw [hstopalive]; decide, fun _ => hstopalive,
      fun u hu => absurd (hstopalive ▸ hu) (List.not_mem_nil u)⟩
  · intro t ht
    have halivesingle : st.alive_broadcast = [t] := by
      have hlen := hwf.1
      cases halive : st.alive_broadcast with
      | nil =>
        rw [halive] at ht
        cases ht
      | cons a rest =>
        rw [halive] at ht hlen
        cases rest with
        | nil =>
          have h : t = a := List.mem_singleton.mp ht
          rw [h]
        | cons b rest2 =>
          exfalso
          simp only [List.length_cons] at hlen
          omega
    refine ⟨rfl, ?_, ?_⟩
    · simp [DeviceScanner.broadcast_loop_finish, halivesingle]
    · refine ⟨?_, ?_, ?_⟩
      · simp [DeviceScanner.broadcast_loop_finish, halivesingle]
      · intro _
        simp [DeviceScanner.broadcast_loop_finish, halivesingle]
      · intro u hu
        simp [DeviceScanner.broadcast_loop_finish, halivesingle] at hu
  · intro hidle
    have hne : ¬ st.is_broadcasting = true := by rw [hidle]; exact Bool.false_ne_true
    simp [DeviceScanner.stop_broadcast, hne]
  · intro hnone
    simp [DeviceScanner.stop_listening, hnone]

/-- C7 witness: the theorem applied at the idle initial state — where
`is_broadcasting = false` and `listen_task = none` hold, so the no-op
conjuncts are established non-vacuously — and at the running state reached
by one `start_broadcast`, whose alive loop `0` exercises the
natural-completion conjunct. -/
theorem c7_broadcast_lifecycle_witness :
    (ScannerState.init.is_broadcasting = false
      ∧ ScannerState.init.listen_task = none
      ∧ (((DeviceScanner.start_broadcast ScannerState.init).is_broadcasting = true
          ∧ (DeviceScanner.start_broadcast ScannerState.init).alive_broadcast
              = [ScannerState.init.next_id]
          ∧ ScannerWF (DeviceScanner.start_broadcast ScannerState.init))
        ∧ ((DeviceScanner.stop_broadcast ScannerState.init).is_broadcasting = false
          ∧ (DeviceScanner.stop_broadcast ScannerState.init).alive_broadcast = []
          ∧ ScannerWF (DeviceScanner.stop_broadcast ScannerState.init))
        ∧ (∀ t ∈ ScannerState.init.alive_broadcast,
            (DeviceScanner.broadcast_loop_finish ScannerState.init t).is_broadcasting = false
            ∧ (DeviceScanner.broadcast_loop_finish ScannerState.init t).alive_broadcast = []
            ∧ ScannerWF (DeviceScanner.broadcast_loop_finish ScannerState.init t))
        ∧ (ScannerState.init.is_broadcasting = false →
            DeviceScanner.stop_broadcast ScannerState.init = ScannerState.init)
        ∧ (ScannerState.init.listen_task = none →
            DeviceScanner.stop_listening ScannerState.init = ScannerState.init)))
  ∧ ((DeviceScanner.start_broadcast ScannerState.init).is_broadcasting = true
      ∧ 0 ∈ (DeviceScanner.start_broadcast ScannerState.init).alive_broadcast
      ∧ (((DeviceScanner.start_broadcast (DeviceScanner.start_broadcast
              ScannerState.init)).is_broadcasting = true
          ∧ (DeviceScanner.start_broadcast (DeviceScanner.start_broadcast
              ScannerState.init)).alive_broadcast
              = [(DeviceScanner.start_broadcast ScannerState.init).next_id]
          ∧ ScannerWF (DeviceScanner.start_broadcast (DeviceScanner.start_broadcast
              ScannerState.init)))
        ∧ ((DeviceScanner.stop_broadcast (DeviceScanner.start_broadcast
              ScannerState.init)).is_broadcasting = false
          ∧ (DeviceScanner.stop_broadcast (DeviceScanner.start_broadcast
              ScannerState.init)).alive_broadcast = []
          ∧ ScannerWF (DeviceScanner.stop_broadcast (DeviceScanner.start_broadcast
              ScannerState.init)))
        ∧ (∀ t ∈ (DeviceScanner.start_broadcast ScannerState.init).alive_broadcast,
            (DeviceScanner.broadcast_loop_finish (DeviceScanner.start_broadcast
                ScannerState.init) t).is_broadcasting = false
            ∧ (DeviceScanner.broadcast_loop_finish (DeviceScanner.start_broadcast
                ScannerState.init) t).alive_broadcast = []
            ∧ ScannerWF (DeviceScanner.broadcast_loop_finish (DeviceScanner.start_broadcast
                ScannerState.init) t))
        ∧ ((DeviceScanner.start_broadcast ScannerState.init).is_broadcasting = false →
            DeviceScanner.stop_broadcast (DeviceScanner.start_broadcast ScannerState.init)
              = DeviceScanner.start_broadcast ScannerState.init)
        ∧ ((DeviceScanner.start_broadcast ScannerState.init).listen_task = none →
            DeviceScanner.stop_listening (DeviceScanner.start_broadcast ScannerState.init)
              = DeviceScanner.start_broadcast ScannerState.init))) :=
  ⟨⟨by decide, by decide,
    c7_broadcast_lifecycle ScannerState.init ⟨by decide, by decide, by decide⟩⟩,
   ⟨by decide, by decide,
    c7_broadcast_lifecycle (DeviceScanner.start_broadcast ScannerState.init)
      ⟨by decide, by decide, by decide⟩⟩⟩
